import Mathlib

/-!
Shallow embedding of the state-verification engine of the verify package:
the temporary-set contract with its in-memory reference implementation,
the fingerprinting scheme, the two-phase reconciliation algorithm of
StateVerifier, and the ledger-entry transform of the orchestrator.
Go methods that mutate their receiver are embedded in state-passing
style; Go error values, compared by identity in the source, become
constructors of an error type; errors built from message strings keep
their message.
-/

/-- Go error values used by the verify package: the sentinel errors
errKeyNotFound and errKeyAlreadyExists, the end-of-stream sentinel of the
standard library, and message errors produced by errors.New /
errors.Errorf. -/
inductive GoErr : Type where
  | keyNotFound
  | keyAlreadyExists
  | eof
  | errMsg (msg : String)
  deriving DecidableEq, Repr

/-- State-passing embedding of the StateVerifyTempSet interface. Each Go
method that can fail returns an Except; methods that mutate the receiver
return the new state on success. -/
structure TempSetOps (σ : Type) where
  openSet : Except GoErr σ
  add : σ → String → Except GoErr σ
  remove : σ → String → Except GoErr σ
  isEmpty : σ → Except GoErr Bool
  closeSet : σ → Except GoErr σ

/-- MemoryStateVerifyTempSet.Add: error if the key is already present,
otherwise insert it. The Go map of keys is embedded as the list of its
keys. -/
def memAdd (s : List String) (key : String) : Except GoErr (List String) :=
  if key ∈ s then .error .keyAlreadyExists else .ok (key :: s)

/-- MemoryStateVerifyTempSet.Remove: error if the key is absent,
otherwise delete it. -/
def memRemove (s : List String) (key : String) : Except GoErr (List String) :=
  if key ∈ s then .ok (s.erase key) else .error .keyNotFound

/-- MemoryStateVerifyTempSet.IsEmpty: whether the set holds zero keys. -/
def memIsEmpty (s : List String) : Except GoErr Bool :=
  .ok s.isEmpty

/-- The in-memory reference implementation: Open allocates an empty set,
Close drops the reference. -/
def memTempSet : TempSetOps (List String) :=
  ⟨.ok [], memAdd, memRemove, memIsEmpty, fun _ => .ok []⟩

/-- Encoding environment for ledger entries. MarshalBinary comes from the
xdr package and the digest and text encoding from the Go standard
library, none of which is under src, so they are kept as function
parameters. Modelled from the spec: fingerprinting serializes the record
to its canonical binary encoding (which can fail), hashes the encoding
with a cryptographic digest (sha256) and text-encodes the digest
(base64); all of them pure functions of their input. -/
structure HashEnv (Entry : Type) where
  marshal : Entry → Except GoErr (List Nat)
  sha256 : List Nat → List Nat
  b64 : List Nat → String

/-- StateVerifier.entryToKey: marshal the entry, hash the bytes, encode
the digest. -/
def entryToKey {Entry : Type} (env : HashEnv Entry) (entry : Entry) : Except GoErr String :=
  match env.marshal entry with
  | .error e => .error e
  | .ok bs => .ok (env.b64 (env.sha256 bs))

/-- Base64 of an entry encoding as used in the corruption diagnosis;
the marshalling error is ignored there (the nil slice encodes as the
empty byte string). -/
def b64Marshal {Entry : Type} (env : HashEnv Entry) (entry : Entry) : String :=
  match env.marshal entry with
  | .ok bs => env.b64 bs
  | .error _ => env.b64 []

/-- Message of the corruption diagnosis built by errors.Errorf when an
authoritative entry has no matching added entry. -/
def notFoundMsg (pre64 e64 key : String) : String :=
  "Could not find entry " ++ pre64 ++ " (transformed = " ++ e64 ++
    ", key = " ++ key ++ ") in added entries"

/-- Message stored by Verify when TempSet.IsEmpty returns an error. -/
def leftoverMsg : String :=
  "Some entries added in Add has not been found in history archives"

/-- Application of the optional TransformFunction: a nil function ignores
nothing and keeps the entry unchanged. -/
def applyTransform {Entry : Type} (tf : Option (Entry → Bool × Entry)) (e : Entry) :
    Bool × Entry :=
  match tf with
  | none => (false, e)
  | some f => f e

/-- Outcome of the Verify loop: the returned pair (ok, err), the final
temporary-set state, the stored corruption diagnosis, and the part of the
authoritative stream left unread. -/
structure VOut (Entry σ : Type) where
  ok : Bool
  err : Option GoErr
  st : σ
  corrupt : Option GoErr
  rest : List (Except GoErr Entry)

/-- Epilogue of Verify after the stream loop ends: ask IsEmpty and
classify. On an IsEmpty failure the source stores the leftover message as
the corruption diagnosis and returns (true, err); on success it returns
the emptiness flag with a nil error. -/
def verifyFinish {Entry σ : Type} (ts : TempSetOps σ) (corrupt : Option GoErr) (s : σ)
    (rest : List (Except GoErr Entry)) : VOut Entry σ :=
  match ts.isEmpty s with
  | .error e => ⟨true, some e, s, some (.errMsg leftoverMsg), rest⟩
  | .ok empty => ⟨empty, none, s, corrupt, rest⟩

/-- The Verify loop over the authoritative stream. The stream is the list
of outcomes successive StateReader.Read calls would produce; after the
list the reader reports end of stream. A read error breaks out with
(true, err); an entry marked ignore by the transform is skipped; a
fingerprinting failure breaks out with (true, err); a Remove returning
KeyNotFound stores the diagnosis and returns (false, nil) at once; any
other Remove error breaks out with (true, err). -/
def verifyAux {Entry σ : Type} (env : HashEnv Entry) (tf : Option (Entry → Bool × Entry))
    (ts : TempSetOps σ) (corrupt : Option GoErr) :
    List (Except GoErr Entry) → σ → VOut Entry σ
  | [], s => verifyFinish ts corrupt s []
  | Except.error e :: rest, s =>
    if e = GoErr.eof then verifyFinish ts corrupt s rest
    else ⟨true, some e, s, corrupt, rest⟩
  | Except.ok entry0 :: rest, s =>
    if (applyTransform tf entry0).1 then verifyAux env tf ts corrupt rest s
    else
      match entryToKey env (applyTransform tf entry0).2 with
      | .error e => ⟨true, some e, s, corrupt, rest⟩
      | .ok key =>
        match ts.remove s key with
        | .ok s1 => verifyAux env tf ts corrupt rest s1
        | .error e =>
          if e = GoErr.keyNotFound then
            ⟨false, none, s,
              some (.errMsg (notFoundMsg (b64Marshal env entry0)
                (b64Marshal env (applyTransform tf entry0).2) key)), rest⟩
          else ⟨true, some e, s, corrupt, rest⟩

/-- The StateVerifier: the remaining authoritative stream, the pluggable
temporary set with its current state, the optional transform function,
the encoding environment and the stored corruption diagnosis. -/
structure StateVerifier (Entry σ : Type) where
  stateReader : List (Except GoErr Entry)
  tempSet : TempSetOps σ
  tempState : σ
  transformFunction : Option (Entry → Bool × Entry)
  env : HashEnv Entry
  stateCorruptedError : Option GoErr

namespace StateVerifier

/-- StateVerifier.Open delegates to TempSet.Open. -/
def Open {Entry σ : Type} (v : StateVerifier Entry σ) :
    Except GoErr (StateVerifier Entry σ) :=
  match v.tempSet.openSet with
  | .error e => .error e
  | .ok s => .ok { v with tempState := s }

/-- StateVerifier.Close delegates to TempSet.Close. -/
def Close {Entry σ : Type} (v : StateVerifier Entry σ) :
    Except GoErr (StateVerifier Entry σ) :=
  match v.tempSet.closeSet v.tempState with
  | .error e => .error e
  | .ok s => .ok { v with tempState := s }

/-- StateVerifier.Add fingerprints the entry and inserts the key into the
temporary set. -/
def Add {Entry σ : Type} (v : StateVerifier Entry σ) (entry : Entry) :
    Except GoErr (StateVerifier Entry σ) :=
  match entryToKey v.env entry with
  | .error e => .error e
  | .ok key =>
    match v.tempSet.add v.tempState key with
    | .error e => .error e
    | .ok s => .ok { v with tempState := s }

/-- StateVerifier.Verify: run the reconciliation loop and return the pair
(ok, err) together with the verifier as it stands afterwards. -/
def Verify {Entry σ : Type} (v : StateVerifier Entry σ) :
    Bool × Option GoErr × StateVerifier Entry σ :=
  let o := verifyAux v.env v.transformFunction v.tempSet v.stateCorruptedError
    v.stateReader v.tempState
  (o.ok, o.err,
    { v with tempState := o.st, stateCorruptedError := o.corrupt, stateReader := o.rest })

/-- StateVerifier.StateError returns the stored corruption diagnosis. -/
def StateError {Entry σ : Type} (v : StateVerifier Entry σ) : Option GoErr :=
  v.stateCorruptedError

end StateVerifier

/-- Concrete encoding environment used to evaluate the engine on concrete
inputs: entries are already their canonical byte lists, the digest is the
identity and the text encoding prints the byte list. -/
def envLN : HashEnv (List Nat) :=
  ⟨fun e => .ok e, fun bs => bs, fun bs => toString bs⟩

/-- Evaluation check tying the concrete environment to its printed
keys. -/
theorem envLN_key_eval : entryToKey envLN [9] = .ok "[9]" ∧ memAdd [] "[9]" = .ok ["[9]"] :=
  ⟨rfl, rfl⟩

/-- Verifier over concrete entries with an opened in-memory temporary set
and an already exhausted authoritative stream. -/
def vAddBase : StateVerifier (List Nat) (List String) :=
  ⟨[], memTempSet, [], none, envLN, none⟩

/-- The verifier vAddBase after one successful Add of the entry [1]. -/
def vLeftover : StateVerifier (List Nat) (List String) :=
  { vAddBase with tempState := ["[1]"] }

/-- C1: the claim says that when the stream is exhausted with no Remove
mismatch and IsEmpty succeeds reporting a non-empty set, Verify returns
(true, err). Evaluating the code on one locally added record and an empty
authoritative stream: IsEmpty succeeds and reports non-empty, and Verify
returns (false, nil) with no diagnosis recorded, contradicting the claim
and the documentation of StateError. -/
theorem c1_leftover_returns_false_nil :
    vAddBase.Add [1] = .ok vLeftover ∧
    vLeftover.Verify.1 = false ∧
    vLeftover.Verify.2.1 = none ∧
    vLeftover.Verify.2.2.StateError = none ∧
    memIsEmpty vLeftover.tempState = .ok false :=
  ⟨rfl, rfl, rfl, rfl, rfl⟩

/-- TempSet identical to the in-memory implementation except that IsEmpty
fails with a backend read error, standing for a pluggable backend whose
inspection step hits an infrastructure failure. -/
def failEmptyTempSet : TempSetOps (List String) :=
  { memTempSet with isEmpty := fun _ => .error (.errMsg "backend read failed") }

/-- Verifier whose temporary set fails on IsEmpty. -/
def vIsEmptyFails : StateVerifier (List Nat) (List String) :=
  ⟨[], failEmptyTempSet, [], none, envLN, none⟩

/-- C2: the claim says every infrastructure abort leaves no corruption
diagnosis. Evaluating the code with a temporary set whose IsEmpty fails:
Verify aborts with (true, err) as an infrastructure failure, yet it
stores the leftover-entries message as the corruption diagnosis, so
StateError is non-empty afterwards, contradicting the claim. -/
theorem c2_isempty_error_records_diagnosis :
    vIsEmptyFails.Verify.1 = true ∧
    vIsEmptyFails.Verify.2.1 = some (GoErr.errMsg "backend read failed") ∧
    vIsEmptyFails.Verify.2.2.StateError = some (GoErr.errMsg leftoverMsg) :=
  ⟨rfl, rfl, rfl⟩

/-- A prefix of the authoritative stream that the Verify loop consumes
without stopping: each element is a successfully read entry that is
either marked ignore by the transform, or fingerprints successfully and
is removed from the temporary set without error. -/
inductive ConsumesOk {Entry σ : Type} (env : HashEnv Entry)
    (tf : Option (Entry → Bool × Entry)) (ts : TempSetOps σ) :
    List (Except GoErr Entry) → σ → σ → Prop where
  | nil (s : σ) : ConsumesOk env tf ts [] s s
  | ignored {e : Entry} {rest : List (Except GoErr Entry)} {s s1 : σ}
      (hig : (applyTransform tf e).1 = true)
      (h : ConsumesOk env tf ts rest s s1) :
      ConsumesOk env tf ts (Except.ok e :: rest) s s1
  | removed {e : Entry} {rest : List (Except GoErr Entry)} {s smid s1 : σ} {key : String}
      (hig : (applyTransform tf e).1 = false)
      (hkey : entryToKey env (applyTransform tf e).2 = .ok key)
      (hrem : ts.remove s key = .ok smid)
      (h : ConsumesOk env tf ts rest smid s1) :
      ConsumesOk env tf ts (Except.ok e :: rest) s s1

/-- Running the Verify loop on a consumed prefix followed by any suffix
behaves like running it on the suffix from the state the prefix leads
to. -/
theorem verifyAux_append_of_consumes {Entry σ : Type} {env : HashEnv Entry}
    {tf : Option (Entry → Bool × Entry)} {ts : TempSetOps σ}
    {pre : List (Except GoErr Entry)} {s s1 : σ}
    (h : ConsumesOk env tf ts pre s s1) (corrupt : Option GoErr)
    (rest : List (Except GoErr Entry)) :
    verifyAux env tf ts corrupt (pre ++ rest) s = verifyAux env tf ts corrupt rest s1 := by
  induction h with
  | nil s => rfl
  | ignored hig h ih =>
    simp only [List.cons_append, verifyAux, hig, if_true]
    exact ih
  | removed hig hkey hrem h ih =>
    simp only [List.cons_append, verifyAux, hig, hkey, hrem, Bool.false_eq_true,
      if_false]
    exact ih

/-- C3: after the Verify loop consumed a prefix of the stream with no
mismatch, an authoritative entry that is not ignored and whose
fingerprint is absent from the in-memory temporary set makes Verify
return (false, nil) immediately: the diagnosis built from that entry is
stored so StateError returns it, its message contains the fingerprint,
and the stream records after the mismatch are left unread. -/
theorem c3_first_mismatch {Entry : Type} (env : HashEnv Entry)
    (tf : Option (Entry → Bool × Entry)) (pre post : List (Except GoErr Entry))
    (bad : Entry) (s0 s1 : List String) (key : String)
    (hpre : ConsumesOk env tf memTempSet pre s0 s1)
    (hig : (applyTransform tf bad).1 = false)
    (hkey : entryToKey env (applyTransform tf bad).2 = .ok key)
    (habs : key ∉ s1) :
    (StateVerifier.mk (pre ++ Except.ok bad :: post) memTempSet s0 tf env none).Verify =
      (false, none,
        StateVerifier.mk post memTempSet s1 tf env
          (some (GoErr.errMsg (notFoundMsg (b64Marshal env bad)
            (b64Marshal env (applyTransform tf bad).2) key)))) ∧
    ∃ a b : String,
      notFoundMsg (b64Marshal env bad) (b64Marshal env (applyTransform tf bad).2) key =
        a ++ key ++ b := by
  constructor
  · have hstep := verifyAux_append_of_consumes hpre none (Except.ok bad :: post)
    simp only [StateVerifier.Verify, hstep]
    simp only [verifyAux, hig, Bool.false_eq_true, if_false, hkey, memTempSet, memRemove,
      habs, ite_false]
    rfl
  · exact ⟨"Could not find entry " ++ b64Marshal env bad ++ " (transformed = " ++
      b64Marshal env (applyTransform tf bad).2 ++ ", key = ", ") in added entries", rfl⟩

/-- C3 witness: a concrete run with one added key, a stream holding one
entry that never was added, evaluated through the theorem. -/
theorem c3_first_mismatch_witness :
    (StateVerifier.mk ([] ++ Except.ok [9] :: []) memTempSet ["x"] none envLN none).Verify =
      (false, none,
        StateVerifier.mk [] memTempSet ["x"] none envLN
          (some (GoErr.errMsg (notFoundMsg (b64Marshal envLN [9])
            (b64Marshal envLN (applyTransform none [9]).2) "[9]")))) ∧
    ∃ a b : String,
      notFoundMsg (b64Marshal envLN [9]) (b64Marshal envLN (applyTransform none [9]).2) "[9]" =
        a ++ "[9]" ++ b :=
  c3_first_mismatch envLN none [] [] [9] ["x"] ["x"] "[9]" (ConsumesOk.nil ["x"]) rfl rfl
    (by decide)

/-- Fingerprints of the authoritative entries that take part in
verification: entries marked ignore by the transform are dropped, the
others are fingerprinted in stream order, and the first fingerprinting
failure is returned. -/
def streamKeys {Entry : Type} (env : HashEnv Entry) (tf : Option (Entry → Bool × Entry)) :
    List Entry → Except GoErr (List String)
  | [] => .ok []
  | e :: rest =>
    if (applyTransform tf e).1 then streamKeys env tf rest
    else
      match entryToKey env (applyTransform tf e).2 with
      | .error err => .error err
      | .ok k =>
        match streamKeys env tf rest with
        | .error err => .error err
        | .ok ks => .ok (k :: ks)

/-- When the non-ignored stream fingerprints form a permutation of the
in-memory temporary-set state, the Verify loop removes every key,
finishes on an empty set and returns (true, nil), whatever the stream
order. -/
theorem verifyAux_perm {Entry : Type} (env : HashEnv Entry)
    (tf : Option (Entry → Bool × Entry)) :
    ∀ (entries : List Entry) (ks s : List String) (corrupt : Option GoErr),
      streamKeys env tf entries = .ok ks → ks.Perm s →
      verifyAux env tf memTempSet corrupt (entries.map Except.ok) s =
        ⟨true, none, [], corrupt, []⟩ := by
  intro entries
  induction entries with
  | nil =>
    intro ks s corrupt hks hperm
    simp only [streamKeys, Except.ok.injEq] at hks
    subst hks
    have hs : s = [] := hperm.symm.eq_nil
    subst hs
    rfl
  | cons e rest ih =>
    intro ks s corrupt hks hperm
    by_cases hig : (applyTransform tf e).1
    · simp only [streamKeys, hig, if_true] at hks
      simp only [List.map_cons, verifyAux, hig, if_true]
      exact ih ks s corrupt hks hperm
    · have hig2 : (applyTransform tf e).1 = false := by simpa using hig
      simp only [streamKeys, hig2, Bool.false_eq_true, if_false] at hks
      cases hk : entryToKey env (applyTransform tf e).2 with
      | error err => rw [hk] at hks; cases hks
      | ok k =>
        rw [hk] at hks
        cases hrest : streamKeys env tf rest with
        | error err => rw [hrest] at hks; cases hks
        | ok ks2 =>
          rw [hrest] at hks
          simp only [Except.ok.injEq] at hks
          subst hks
          have hk_mem : k ∈ s := hperm.subset (by simp)
          have hrem : memRemove s k = .ok (s.erase k) := by
            simp [memRemove, hk_mem]
          have hperm2 : ks2.Perm (s.erase k) :=
            (hperm.trans (List.perm_cons_erase hk_mem)).cons_inv
          simp only [List.map_cons, verifyAux, hig2, Bool.false_eq_true, if_false, hk,
            memTempSet, hrem]
          exact ih ks2 (s.erase k) corrupt hrest hperm2

/-- Folding StateVerifier.Add over a list of local records, stopping at
the first error, as the local-record producer does. -/
def addAll {Entry σ : Type} (v : StateVerifier Entry σ) :
    List Entry → Except GoErr (StateVerifier Entry σ)
  | [] => .ok v
  | e :: rest =>
    match v.Add e with
    | .error err => .error err
    | .ok v1 => addAll v1 rest

/-- Add changes only the temporary-set state of the verifier. -/
theorem add_fields {Entry σ : Type} (v v1 : StateVerifier Entry σ) (e : Entry)
    (h : v.Add e = .ok v1) :
    v1.stateReader = v.stateReader ∧ v1.tempSet = v.tempSet ∧
      v1.transformFunction = v.transformFunction ∧ v1.env = v.env ∧
      v1.stateCorruptedError = v.stateCorruptedError := by
  simp only [StateVerifier.Add] at h
  cases hk : entryToKey v.env e with
  | error err => rw [hk] at h; cases h
  | ok key =>
    rw [hk] at h
    dsimp only at h
    cases ha : v.tempSet.add v.tempState key with
    | error err => rw [ha] at h; cases h
    | ok s =>
      rw [ha] at h
      simp only [Except.ok.injEq] at h
      subst h
      exact ⟨rfl, rfl, rfl, rfl, rfl⟩

/-- A chain of Adds changes only the temporary-set state of the
verifier. -/
theorem addAll_fields {Entry σ : Type} :
    ∀ (locals : List Entry) (v v1 : StateVerifier Entry σ),
      addAll v locals = .ok v1 →
      v1.stateReader = v.stateReader ∧ v1.tempSet = v.tempSet ∧
        v1.transformFunction = v.transformFunction ∧ v1.env = v.env ∧
        v1.stateCorruptedError = v.stateCorruptedError := by
  intro locals
  induction locals with
  | nil =>
    intro v v1 h
    simp only [addAll, Except.ok.injEq] at h
    subst h
    exact ⟨rfl, rfl, rfl, rfl, rfl⟩
  | cons e rest ih =>
    intro v v1 h
    simp only [addAll] at h
    cases hadd : v.Add e with
    | error err => rw [hadd] at h; cases h
    | ok v2 =>
      rw [hadd] at h
      obtain ⟨a1, a2, a3, a4, a5⟩ := add_fields v v2 e hadd
      obtain ⟨b1, b2, b3, b4, b5⟩ := ih v2 v1 h
      exact ⟨b1.trans a1, b2.trans a2, b3.trans a3, b4.trans a4, b5.trans a5⟩

/-- C4: with an opened in-memory temporary set, local records accumulated
through Add, and an authoritative stream of successfully read entries
whose non-ignored fingerprints form any permutation of the added keys,
Verify returns (true, nil): the verdict does not depend on the order the
stream delivers the records. -/
theorem c4_order_independent {Entry : Type} (env : HashEnv Entry)
    (tf : Option (Entry → Bool × Entry)) (locals entries : List Entry)
    (ks : List String) (v1 : StateVerifier Entry (List String))
    (hadd : addAll
      (StateVerifier.mk (entries.map Except.ok) memTempSet [] tf env none) locals = .ok v1)
    (hkeys : streamKeys env tf entries = .ok ks)
    (hperm : ks.Perm v1.tempState) :
    v1.Verify.1 = true ∧ v1.Verify.2.1 = none := by
  obtain ⟨hr, hts, htf, henv, hcor⟩ := addAll_fields locals _ v1 hadd
  simp only [StateVerifier.Verify]
  rw [hr, hts, htf, henv, hcor]
  dsimp only
  rw [verifyAux_perm env tf entries ks v1.tempState none hkeys hperm]
  exact ⟨rfl, rfl⟩

/-- C4 witness: two local records added, the stream delivering them in
the opposite order, evaluated through the theorem. -/
theorem c4_order_independent_witness :
    (StateVerifier.mk ([[2], [1]].map Except.ok) memTempSet ["[2]", "[1]"] none envLN
      none).Verify.1 = true ∧
    (StateVerifier.mk ([[2], [1]].map Except.ok) memTempSet ["[2]", "[1]"] none envLN
      none).Verify.2.1 = none :=
  c4_order_independent envLN none [[1], [2]] [[2], [1]] ["[2]", "[1]"]
    (StateVerifier.mk ([[2], [1]].map Except.ok) memTempSet ["[2]", "[1]"] none envLN none)
    rfl rfl (List.Perm.refl _)

/-- Shape of a successful Add: the entry fingerprinted to some key, the
temporary set accepted it, and only the set state changed. -/
theorem add_ok_shape {Entry σ : Type} (v v1 : StateVerifier Entry σ) (e : Entry)
    (h : v.Add e = .ok v1) :
    ∃ key s, entryToKey v.env e = .ok key ∧ v.tempSet.add v.tempState key = .ok s ∧
      v1 = { v with tempState := s } := by
  simp only [StateVerifier.Add] at h
  cases hk : entryToKey v.env e with
  | error err => rw [hk] at h; cases h
  | ok key =>
    rw [hk] at h
    dsimp only at h
    cases ha : v.tempSet.add v.tempState key with
    | error err => rw [ha] at h; cases h
    | ok s =>
      rw [ha] at h
      simp only [Except.ok.injEq] at h
      exact ⟨key, s, rfl, ha, h.symm⟩

/-- C5: two local records with byte-identical canonical encodings
collide on the fingerprint: with the in-memory temporary set, once the
first Add succeeds the second Add fails with KeyAlreadyExists. -/
theorem c5_duplicate_add {Entry : Type} (v v1 : StateVerifier Entry (List String))
    (e1 e2 : Entry)
    (hts : v.tempSet = memTempSet)
    (henc : v.env.marshal e1 = v.env.marshal e2)
    (h1 : v.Add e1 = .ok v1) :
    v1.Add e2 = .error .keyAlreadyExists := by
  obtain ⟨key, s, hk, ha, hv1⟩ := add_ok_shape v v1 e1 h1
  subst hv1
  have hkeq : entryToKey v.env e2 = .ok key := by
    rw [entryToKey, ← henc, ← entryToKey]
    exact hk
  rw [hts] at ha
  have hs : s = key :: v.tempState := by
    by_cases hin : key ∈ v.tempState
    · simp [memTempSet, memAdd, hin] at ha
    · simp only [memTempSet, memAdd, hin, if_false, ite_false, Except.ok.injEq] at ha
      exact ha.symm
  subst hs
  simp [StateVerifier.Add, hkeq, hts, memTempSet, memAdd]

/-- C5 witness: adding the entry [7] twice through the theorem. -/
theorem c5_duplicate_add_witness :
    ({ vAddBase with tempState := ["[7]"] } : StateVerifier (List Nat) (List String)).Add [7] =
      .error .keyAlreadyExists :=
  c5_duplicate_add vAddBase { vAddBase with tempState := ["[7]"] } [7] [7] rfl rfl rfl

/-- Verdict of a Verify run: the returned pair (ok, err) together with
the stored corruption diagnosis. -/
def verdict {Entry σ : Type} (o : VOut Entry σ) : Bool × Option GoErr × Option GoErr :=
  (o.ok, o.err, o.corrupt)

/-- The epilogue verdict does not depend on the unread tail recorded in
the outcome. -/
theorem verdict_verifyFinish {Entry σ : Type} (ts : TempSetOps σ) (corrupt : Option GoErr)
    (s : σ) (r r2 : List (Except GoErr Entry)) :
    verdict (verifyFinish ts corrupt s r) = verdict (verifyFinish ts corrupt s r2) := by
  cases h : ts.isEmpty s with
  | error e => simp [verifyFinish, h, verdict]
  | ok b => simp [verifyFinish, h, verdict]

/-- An entry marked ignore is skipped whole: no fingerprint is computed,
no Remove is attempted, the set state is untouched. -/
theorem verifyAux_skip {Entry σ : Type} (env : HashEnv Entry) (tfF : Entry → Bool × Entry)
    (ts : TempSetOps σ) (corrupt : Option GoErr) (d : Entry)
    (hig : (tfF d).1 = true)
    (rest : List (Except GoErr Entry)) (s : σ) :
    verifyAux env (some tfF) ts corrupt (Except.ok d :: rest) s =
      verifyAux env (some tfF) ts corrupt rest s := by
  have hig2 : (applyTransform (some tfF) d).1 = true := hig
  simp only [verifyAux, hig2, if_true]

/-- Inserting an ignored entry anywhere in the stream leaves the verdict
of the Verify loop unchanged. -/
theorem verdict_insert_ignored {Entry σ : Type} (env : HashEnv Entry)
    (tfF : Entry → Bool × Entry) (ts : TempSetOps σ) (d : Entry)
    (hig : (tfF d).1 = true) :
    ∀ (pre post : List (Except GoErr Entry)) (corrupt : Option GoErr) (s : σ),
      verdict (verifyAux env (some tfF) ts corrupt (pre ++ Except.ok d :: post) s) =
        verdict (verifyAux env (some tfF) ts corrupt (pre ++ post) s) := by
  intro pre
  induction pre with
  | nil =>
    intro post corrupt s
    simp only [List.nil_append]
    rw [verifyAux_skip env tfF ts corrupt d hig post s]
  | cons x pre ih =>
    intro post corrupt s
    cases x with
    | error e =>
      by_cases he : e = GoErr.eof
      · subst he
        simp only [List.cons_append, verifyAux, if_pos rfl]
        exact verdict_verifyFinish ts corrupt s _ _
      · simp only [List.cons_append, verifyAux, if_neg he]
        rfl
    | ok e0 =>
      by_cases hig0 : (applyTransform (some tfF) e0).1
      · simp only [List.cons_append, verifyAux, hig0, if_true]
        exact ih post corrupt s
      · have hig0f : (applyTransform (some tfF) e0).1 = false := by simpa using hig0
        simp only [List.cons_append, verifyAux, hig0f, Bool.false_eq_true, if_false]
        cases hk : entryToKey env (applyTransform (some tfF) e0).2 with
        | error err => rfl
        | ok key =>
          dsimp only
          cases hr : ts.remove s key with
          | ok s1 => exact ih post corrupt s1
          | error err =>
            by_cases hkn : err = GoErr.keyNotFound
            · subst hkn; rfl
            · simp only [if_neg hkn]
              rfl

/-- C6: an entry the transform marks ignore is skipped entirely by the
Verify loop, and inserting it anywhere in the authoritative stream
changes neither the pair Verify returns nor the stored diagnosis. -/
theorem c6_ignored_entry {Entry σ : Type} (env : HashEnv Entry) (tfF : Entry → Bool × Entry)
    (ts : TempSetOps σ) (d : Entry) (hig : (tfF d).1 = true)
    (pre post rest : List (Except GoErr Entry)) (s s0 : σ) (corrupt : Option GoErr) :
    verifyAux env (some tfF) ts corrupt (Except.ok d :: rest) s =
      verifyAux env (some tfF) ts corrupt rest s ∧
    (StateVerifier.mk (pre ++ Except.ok d :: post) ts s0 (some tfF) env corrupt).Verify.1 =
      (StateVerifier.mk (pre ++ post) ts s0 (some tfF) env corrupt).Verify.1 ∧
    (StateVerifier.mk (pre ++ Except.ok d :: post) ts s0 (some tfF) env corrupt).Verify.2.1 =
      (StateVerifier.mk (pre ++ post) ts s0 (some tfF) env corrupt).Verify.2.1 ∧
    (StateVerifier.mk (pre ++ Except.ok d :: post) ts s0 (some tfF) env
        corrupt).Verify.2.2.StateError =
      (StateVerifier.mk (pre ++ post) ts s0 (some tfF) env corrupt).Verify.2.2.StateError := by
  have hv := verdict_insert_ignored env tfF ts d hig pre post corrupt s0
  exact ⟨verifyAux_skip env tfF ts corrupt d hig rest s,
    congrArg (fun p => p.1) hv, congrArg (fun p => p.2.1) hv,
    congrArg (fun p => p.2.2) hv⟩

/-- Transform used on concrete byte-list entries: the empty entry is
ignored, every other entry is kept unchanged. -/
def tfW : List Nat → Bool × List Nat := fun e => (e.isEmpty, e)

/-- C6 witness: the empty entry is ignored by tfW, evaluated through the
theorem on a concrete stream. -/
theorem c6_ignored_entry_witness :
    verifyAux envLN (some tfW) memTempSet none [Except.ok []] [] =
      verifyAux envLN (some tfW) memTempSet none [] [] ∧
    (StateVerifier.mk ([] ++ Except.ok [] :: []) memTempSet [] (some tfW) envLN
        none).Verify.1 =
      (StateVerifier.mk ([] ++ []) memTempSet [] (some tfW) envLN none).Verify.1 ∧
    (StateVerifier.mk ([] ++ Except.ok [] :: []) memTempSet [] (some tfW) envLN
        none).Verify.2.1 =
      (StateVerifier.mk ([] ++ []) memTempSet [] (some tfW) envLN none).Verify.2.1 ∧
    (StateVerifier.mk ([] ++ Except.ok [] :: []) memTempSet [] (some tfW) envLN
        none).Verify.2.2.StateError =
      (StateVerifier.mk ([] ++ []) memTempSet [] (some tfW) envLN
        none).Verify.2.2.StateError :=
  c6_ignored_entry envLN tfW memTempSet [] rfl [] [] [] [] [] none

/-- C7: the fingerprint is a pure function of the canonical encoding:
byte-identical encodings give identical keys, and neither Add nor Verify
changes the encoding environment, so the fingerprint of an entry is the
same on any call and in any call order. -/
theorem c7_fingerprint_deterministic {Entry σ : Type} (env : HashEnv Entry) (e1 e2 : Entry)
    (henc : env.marshal e1 = env.marshal e2) :
    entryToKey env e1 = entryToKey env e2 ∧
    (∀ (v v1 : StateVerifier Entry σ) (x : Entry), v.Add x = .ok v1 →
      ∀ y : Entry, entryToKey v1.env y = entryToKey v.env y) ∧
    (∀ (v : StateVerifier Entry σ) (y : Entry),
      entryToKey v.Verify.2.2.env y = entryToKey v.env y) := by
  refine ⟨?_, ?_, ?_⟩
  · simp only [entryToKey, henc]
  · intro v v1 x h y
    obtain ⟨-, -, -, henv2, -⟩ := add_fields v v1 x h
    rw [henv2]
  · intro v y
    rfl

/-- C7 witness: the determinism statement instantiated on a concrete
environment and entry. -/
theorem c7_fingerprint_deterministic_witness :
    entryToKey envLN [1] = entryToKey envLN [1] ∧
    (∀ (v v1 : StateVerifier (List Nat) (List String)) (x : List Nat), v.Add x = .ok v1 →
      ∀ y : List Nat, entryToKey v1.env y = entryToKey v.env y) ∧
    (∀ (v : StateVerifier (List Nat) (List String)) (y : List Nat),
      entryToKey v.Verify.2.2.env y = entryToKey v.env y) :=
  c7_fingerprint_deterministic envLN [1] [1] rfl

/-- C8: Close only touches the temporary set: when Verify has returned
(false, nil) and recorded a diagnosis, StateError returns the same
diagnosis after a successful Close as before it. -/
theorem c8_close_keeps_diagnosis {Entry σ : Type} (v v1 v2 : StateVerifier Entry σ)
    (d : GoErr)
    (hver : v.Verify = (false, none, v1))
    (hdiag : v1.stateCorruptedError = some d)
    (hclose : v1.Close = .ok v2) :
    v2.StateError = some d ∧ v1.StateError = some d := by
  constructor
  · simp only [StateVerifier.Close] at hclose
    cases hc : v1.tempSet.closeSet v1.tempState with
    | error e => rw [hc] at hclose; cases hclose
    | ok s =>
      rw [hc] at hclose
      simp only [Except.ok.injEq] at hclose
      subst hclose
      exact hdiag
  · exact hdiag

/-- Verifier holding one added key and a stream with one entry that was
never added. -/
def vMismatch : StateVerifier (List Nat) (List String) :=
  ⟨[Except.ok [9]], memTempSet, ["x"], none, envLN, none⟩

/-- The verifier vMismatch after Verify detected the mismatch. -/
def vMismatchDone : StateVerifier (List Nat) (List String) :=
  ⟨[], memTempSet, ["x"], none, envLN,
    some (GoErr.errMsg (notFoundMsg "[9]" "[9]" "[9]"))⟩

/-- The verifier vMismatchDone after a successful Close. -/
def vMismatchClosed : StateVerifier (List Nat) (List String) :=
  ⟨[], memTempSet, [], none, envLN,
    some (GoErr.errMsg (notFoundMsg "[9]" "[9]" "[9]"))⟩

/-- C8 witness: Verify records a diagnosis on a concrete mismatch, and
Close leaves StateError unchanged, evaluated through the theorem. -/
theorem c8_close_keeps_diagnosis_witness :
    vMismatchClosed.StateError = some (GoErr.errMsg (notFoundMsg "[9]" "[9]" "[9]")) ∧
    vMismatchDone.StateError = some (GoErr.errMsg (notFoundMsg "[9]" "[9]" "[9]")) :=
  c8_close_keeps_diagnosis vMismatch vMismatchDone vMismatchClosed
    (GoErr.errMsg (notFoundMsg "[9]" "[9]" "[9]")) rfl rfl rfl

/-- One call in the batch protocol of the temporary set. -/
inductive MemOp : Type where
  | add (key : String)
  | remove (key : String)
  deriving DecidableEq, Repr

/-- Running a sequence of Add and Remove calls against the in-memory
set, stopping at the first error, as the engine protocol does after
Open. -/
def applyOps : List MemOp → List String → Except GoErr (List String)
  | [], s => .ok s
  | MemOp.add k :: rest, s =>
    match memAdd s k with
    | .error e => .error e
    | .ok s1 => applyOps rest s1
  | MemOp.remove k :: rest, s =>
    match memRemove s k with
    | .error e => .error e
    | .ok s1 => applyOps rest s1

/-- Every state the in-memory set reaches through Add and Remove calls
from a duplicate-free state holds each key at most once. -/
theorem applyOps_nodup :
    ∀ (ops : List MemOp) (s0 s : List String), s0.Nodup →
      applyOps ops s0 = .ok s → s.Nodup := by
  intro ops
  induction ops with
  | nil =>
    intro s0 s h0 h
    simp only [applyOps, Except.ok.injEq] at h
    subst h
    exact h0
  | cons op rest ih =>
    intro s0 s h0 h
    cases op with
    | add k =>
      simp only [applyOps] at h
      by_cases hin : k ∈ s0
      · simp [memAdd, hin] at h
      · simp only [memAdd, if_neg hin] at h
        exact ih (k :: s0) s (List.nodup_cons.2 ⟨hin, h0⟩) h
    | remove k =>
      simp only [applyOps] at h
      by_cases hin : k ∈ s0
      · simp only [memRemove, if_pos hin] at h
        exact ih (s0.erase k) s (h0.erase k) h
      · simp [memRemove, hin] at h

/-- C9: every state the in-memory temporary set reaches from Open
through a sequence of Add and Remove calls satisfies the contract:
Remove fails with KeyNotFound exactly on absent keys and otherwise
deletes exactly the given key, and IsEmpty reports true exactly when no
key is held. -/
theorem c9_memory_set_contract (ops : List MemOp) (s : List String)
    (h : applyOps ops [] = .ok s) (k : String) :
    (memRemove s k = .error .keyNotFound ↔ k ∉ s) ∧
    (k ∈ s → memRemove s k = .ok (s.erase k) ∧ k ∉ s.erase k ∧
      ∀ k2, k2 ≠ k → (k2 ∈ s.erase k ↔ k2 ∈ s)) ∧
    (memIsEmpty s = .ok true ↔ s = []) := by
  have hnd : s.Nodup := applyOps_nodup ops [] s List.nodup_nil h
  refine ⟨?_, ?_, ?_⟩
  · constructor
    · intro hrem hin
      simp [memRemove, hin] at hrem
    · intro hout
      simp [memRemove, hout]
  · intro hin
    refine ⟨by simp [memRemove, hin], ?_, ?_⟩
    · intro hmem
      exact ((List.Nodup.mem_erase_iff hnd).1 hmem).1 rfl
    · intro k2 hne
      exact List.mem_erase_of_ne hne
  · constructor
    · intro he
      simp only [memIsEmpty, Except.ok.injEq] at he
      exact List.isEmpty_iff.1 he
    · intro he
      subst he
      rfl

/-- C9 witness: the contract evaluated on the state left by two Adds and
one Remove. -/
theorem c9_memory_set_contract_witness :
    (memRemove ["b"] "b" = .error .keyNotFound ↔ "b" ∉ (["b"] : List String)) ∧
    ("b" ∈ (["b"] : List String) → memRemove ["b"] "b" = .ok (["b"].erase "b") ∧
      "b" ∉ (["b"] : List String).erase "b" ∧
      ∀ k2, k2 ≠ "b" → (k2 ∈ (["b"] : List String).erase "b" ↔ k2 ∈ (["b"] : List String))) ∧
    (memIsEmpty ["b"] = .ok true ↔ (["b"] : List String) = []) :=
  c9_memory_set_contract [MemOp.add "a", MemOp.add "b", MemOp.remove "a"] ["b"] rfl "b"

/-- Signer of an account: key in address form and weight. Modelled from
the xdr package (not under src): only the fields the transform reads. -/
structure Signer where
  key : String
  weight : Nat
  deriving DecidableEq, Repr

/-- Account entry: account id in address form, the four threshold bytes
and the signer list. Modelled from the xdr package (not under src). -/
structure AccountEntry where
  accountId : String
  thresholds : Nat × Nat × Nat × Nat
  signers : List Signer
  deriving DecidableEq, Repr

/-- MasterKeyWeight of the xdr package (not under src): the first
threshold byte. -/
def masterKeyWeight (a : AccountEntry) : Nat :=
  a.thresholds.1

/-- Insertion of a signer into a list sorted by key. -/
def insertSigner (x : Signer) : List Signer → List Signer
  | [] => [x]
  | y :: ys => if x.key ≤ y.key then x :: y :: ys else y :: insertSigner x ys

/-- SortSignersByKey of the xdr package (not under src): sort the signer
list by key. -/
def sortSignersByKey (l : List Signer) : List Signer :=
  l.foldr insertSigner []

/-- Data of a ledger entry: the type discriminant (an XDR enum carried as
a 32-bit integer in Go, so values outside the four defined ones can
occur) and the account payload, present when the entry carries an
account. Modelled from the xdr package (not under src); only the parts
the transform reads. -/
structure LedgerEntryData where
  typ : Int
  account : Option AccountEntry
  deriving DecidableEq, Repr

/-- A ledger entry as far as the transform reads it. -/
structure LedgerEntry where
  data : LedgerEntryData
  deriving DecidableEq, Repr

/-- XDR enum value of LedgerEntryTypeAccount. -/
def ledgerEntryTypeAccount : Int := 0

/-- XDR enum value of LedgerEntryTypeTrustline. -/
def ledgerEntryTypeTrustline : Int := 1

/-- XDR enum value of LedgerEntryTypeOffer. -/
def ledgerEntryTypeOffer : Int := 2

/-- XDR enum value of LedgerEntryTypeData. -/
def ledgerEntryTypeData : Int := 3

/-- The zero value of the Go LedgerEntry struct, returned with the
ignore flag for entries excluded from verification. -/
def emptyLedgerEntry : LedgerEntry :=
  ⟨⟨ledgerEntryTypeAccount, none⟩⟩

/-- The transformEntry function of the orchestrator: accounts with no
master key and no signers are ignored; other accounts are projected to
account id, master weight and sorted signers; trustlines, offers and
data entries are ignored; any other type discriminant hits the default
branch of the Go switch, which ends the process, embedded here as none
(as is the nil-pointer dereference of an account entry with no account
payload). -/
def transformEntry (entry : LedgerEntry) : Option (Bool × LedgerEntry) :=
  if entry.data.typ = ledgerEntryTypeAccount then
    match entry.data.account with
    | none => none
    | some accountEntry =>
      if masterKeyWeight accountEntry = 0 ∧ accountEntry.signers = [] then
        some (true, emptyLedgerEntry)
      else
        some (false, ⟨⟨ledgerEntryTypeAccount,
          some ⟨accountEntry.accountId,
            (accountEntry.thresholds.1, 0, 0, 0),
            sortSignersByKey accountEntry.signers⟩⟩⟩)
  else if entry.data.typ = ledgerEntryTypeTrustline then
    some (true, emptyLedgerEntry)
  else if entry.data.typ = ledgerEntryTypeOffer then
    some (true, emptyLedgerEntry)
  else if entry.data.typ = ledgerEntryTypeData then
    some (true, emptyLedgerEntry)
  else
    none

/-- C10: transformEntry ends the process (embedded as none) on every
ledger entry whose type discriminant is none of Account, Trustline,
Offer and Data, instead of ignoring the entry or returning an error. -/
theorem c10_transform_panics_on_unknown_type (e : LedgerEntry)
    (h1 : e.data.typ ≠ ledgerEntryTypeAccount)
    (h2 : e.data.typ ≠ ledgerEntryTypeTrustline)
    (h3 : e.data.typ ≠ ledgerEntryTypeOffer)
    (h4 : e.data.typ ≠ ledgerEntryTypeData) :
    transformEntry e = none := by
  simp [transformEntry, h1, h2, h3, h4]

/-- C10 witness: the discriminant 4, a value the 32-bit enum field can
carry, makes the transform end the process. -/
theorem c10_transform_panics_on_unknown_type_witness :
    transformEntry ⟨⟨4, none⟩⟩ = none :=
  c10_transform_panics_on_unknown_type ⟨⟨4, none⟩⟩ (by decide) (by decide) (by decide)
    (by decide)
